import Mathlib

/-!
Verification of the hobbyfarmkratix reconciliation engine.

Shallow embedding of the Go sources:
  internal/utils.go            — IP classification and backend-specific policy
  internal/kratix_controller.go — request lifecycle reconciler (Kratix path)
  internal/hobbyfarm_kratix_integration.go — cross-system propagation bridge
  internal/gvr.go              — static pool and timeout constants
  the TrainingVM allocator (AllocateTrainingVMs)

Go strings are modelled as Lean `String`; where character-level structure
matters (IP parsing) the underlying `List Char` is used.  Durations are
modelled in seconds as `Nat`; RFC3339 timestamps become `Option Nat`
(`none` = the field is absent or fails to parse).  External effects
(store patches, liveness probes, SSH, Ansible, the cloud API) are
modelled as oracles passed in an environment record; store writes are
assumed to succeed, and each write is applied to the in-memory record.
-/

namespace HFK

/-! ## IP classification (internal/utils.go) -/

/-- Decimal digit table: models Go's per-character digit parsing in
`net.ParseIP` for dotted-decimal fields. -/
def digitOf (c : Char) : Option Nat :=
  if c = '0' then some 0
  else if c = '1' then some 1
  else if c = '2' then some 2
  else if c = '3' then some 3
  else if c = '4' then some 4
  else if c = '5' then some 5
  else if c = '6' then some 6
  else if c = '7' then some 7
  else if c = '8' then some 8
  else if c = '9' then some 9
  else none

/-- One dotted-decimal field: 1–3 digits, value ≤ 255, no leading zero
(Go ≥ 1.17 `net.ParseIP` rejects leading zeros). -/
def parseOctet : List Char → Option Nat
  | [c] => digitOf c
  | [c1, c2] =>
      match digitOf c1, digitOf c2 with
      | some d1, some d2 => if d1 ≠ 0 then some (10 * d1 + d2) else none
      | _, _ => none
  | [c1, c2, c3] =>
      match digitOf c1, digitOf c2, digitOf c3 with
      | some d1, some d2, some d3 =>
          if d1 ≠ 0 ∧ 100 * d1 + 10 * d2 + d3 ≤ 255 then
            some (100 * d1 + 10 * d2 + d3)
          else none
      | _, _, _ => none
  | _ => none

/-- `strings.Split s "."` on the character level. -/
def splitOnDot : List Char → List (List Char)
  | [] => [[]]
  | c :: rest =>
      if c = '.' then [] :: splitOnDot rest
      else
        match splitOnDot rest with
        | [] => [[c]]
        | p :: ps => (c :: p) :: ps

/-- Go's lexicographic (byte-wise) string comparison `a <= b`, used by the
source's `second >= "16" && second <= "31"` check. -/
def lexLe : List Char → List Char → Bool
  | [], _ => true
  | _ :: _, [] => false
  | a :: as, b :: bs =>
      if a.toNat < b.toNat then true
      else if b.toNat < a.toNat then false
      else lexLe as bs

/-- Models `net.ParseIP` restricted to IPv4 dotted-decimal strings:
exactly four fields, each a valid octet.  Textual IPv6 forms (which
contain a colon and are accepted by Go's parser) are outside this
model; the theorems that rely on a failed parse carry an explicit
colon-free hypothesis. -/
def parseIPv4 (s : List Char) : Option (Nat × Nat × Nat × Nat) :=
  match splitOnDot s with
  | [a, b, c, d] =>
      match parseOctet a, parseOctet b, parseOctet c, parseOctet d with
      | some x, some y, some z, some w => some (x, y, z, w)
      | _, _, _, _ => none
  | _ => none

/-- `isPublicIP` from internal/utils.go, character level.  The source
returns false for the empty string, for strings `net.ParseIP` rejects,
and for the RFC 1918 / link-local / loopback prefixes, checked by
literal string-prefix comparison on the original string. -/
def goIsPublicIP (ip : List Char) : Bool :=
  if ip = [] then false
  else if (parseIPv4 ip).isNone then false
  else if "192.168.".data.isPrefixOf ip || "10.".data.isPrefixOf ip then false
  else if "172.".data.isPrefixOf ip &&
      (match splitOnDot ip with
       | _ :: second :: _ => lexLe "16".data second && lexLe second "31".data
       | _ => false) then false
  else if "169.254.".data.isPrefixOf ip then false
  else if "127.".data.isPrefixOf ip then false
  else true

def isPublicIP (ip : String) : Bool :=
  goIsPublicIP ip.data

/-- `getSSHUsername` from internal/utils.go. -/
def getSSHUsername (ip : String) : String :=
  if isPublicIP ip then "ubuntu" else "kube"

/-- `getBootWaitTime` from internal/utils.go, in seconds. -/
def getBootWaitTimeSecs (ip : String) : Nat :=
  if isPublicIP ip then 120 else 30

/-- `getSSHTimeout` from internal/utils.go, in seconds. -/
def getSSHTimeoutSecs (ip : String) : Nat :=
  if isPublicIP ip then 300 else 120

/-- Shape of a liveness probe: connection attempts, per-attempt dial
timeout, sleep between attempts (all from internal/utils.go). -/
structure ProbePlan where
  attempts : Nat
  timeoutSecs : Nat
  sleepSecs : Nat
  deriving DecidableEq, Repr

/-- `isLocalVMReachable`: a single `net.DialTimeout` of 5 seconds. -/
def localProbePlan : ProbePlan := ⟨1, 5, 0⟩

/-- `isEC2Reachable`: 3 attempts, 15-second dials, 10-second sleeps. -/
def ec2ProbePlan : ProbePlan := ⟨3, 15, 10⟩

/-- The probe `isVMReachable` selects for a given address. -/
def probePlan (ip : String) : ProbePlan :=
  if isPublicIP ip then ec2ProbePlan else localProbePlan

/-! ## Data model: VMProvisioningRequest (internal/kratix_controller.go)

A request record as the controller reads it: spec fields, status fields,
and the labels the bridge consults.  `allocatedAt`/`readyAt` are `none`
when the RFC3339 field is absent or does not parse. -/

structure Req where
  name : String
  user : String
  session : String
  /-- `spec.cloudFallback.enabled` -/
  fallbackEnabled : Bool
  /-- `status.state` -/
  state : String
  /-- `status.vmIP` — the resource handle -/
  vmIP : String
  /-- `status.vmType` -/
  vmType : String
  /-- `status.provisioned` -/
  provisioned : Bool
  allocatedAt : Option Nat
  readyAt : Option Nat
  /-- `labels["source"] == "hobbyfarm-integration"` -/
  sourceHobbyfarm : Bool
  /-- `labels["hobbyfarm.io/session"]` -/
  labelSession : String
  /-- `labels["hobbyfarm.io/user"]` -/
  labelUser : String
  deriving DecidableEq, Repr

/-- `updateRequestStatus` (internal/kratix_controller.go): a merge patch
on the status subresource that always writes `state` and `provisioned`
and includes `vmIP`/`vmType` only when the argument is non-empty. -/
def updateRequestStatus (r : Req) (state vmIP vmType : String)
    (provisioned : Bool) : Req :=
  { r with
    state := state
    provisioned := provisioned
    vmIP := if vmIP ≠ "" then vmIP else r.vmIP
    vmType := if vmType ≠ "" then vmType else r.vmType }

/-- An `ec2.aws.upbound.io` Instance as `handleCloudFallback` reads it:
`status.atProvider.publicIp` and `status.atProvider.instanceState`. -/
structure CloudInstance where
  publicIp : String
  instanceState : String
  deriving DecidableEq, Repr

/-- External-world oracles for one reconciliation pass: the outcome of
`isVMReachable`, `WaitForSSH` and `runProvisioning` per address, and the
cloud API (`Get`/`Create` on Instances keyed by instance name). -/
structure Env where
  reachable : String → Bool
  sshOk : String → Bool
  provisionOk : String → Bool
  cloudInst : String → Option CloudInstance
  createOk : String → Bool

/-- The live states counted by `refreshUsedIPs`. -/
def isLiveState (s : String) : Bool :=
  s == "allocated" || s == "provisioning" || s == "ready"

/-- `staticVMPool` literal from `NewKratixController`. -/
def staticVMPool : List String := ["192.168.2.37", "192.168.2.38"]

/-- `refreshUsedIPs`: rebuild the used-handle set from requests whose
`vmIP` is non-empty and whose state is allocated/provisioning/ready. -/
def refreshUsedIPs (reqs : List Req) : List String :=
  (reqs.filter (fun r => r.vmIP != "" && isLiveState r.state)).map (·.vmIP)

/-- The first-fit scan shared by `findAvailableStaticVM` and the inline
loop in `AllocateTrainingVMs`: the first pool address neither used nor
failing the liveness probe, or `""`. -/
def findFirstFit (reachable : String → Bool) (used : List String) :
    List String → String
  | [] => ""
  | ip :: rest =>
      if !used.contains ip && reachable ip then ip
      else findFirstFit reachable used rest

/-- `findAvailableStaticVM` (internal/kratix_controller.go). -/
def findAvailableStaticVM (reachable : String → Bool)
    (used : List String) : String :=
  findFirstFit reachable used staticVMPool

/-- Generic accumulating map: models a Go loop that visits each listed
request in order while threading mutable loop state. -/
def mapAccum {σ : Type} (f : σ → Req → σ × Req) :
    σ → List Req → σ × List Req
  | s, [] => (s, [])
  | s, r :: rs =>
      let (s', r') := f s r
      let (s'', rs') := mapAccum f s' rs
      (s'', r' :: rs')

/-- One iteration of `processVMProvisioningRequests` for one request:
skip if already processed, otherwise initialise `status.state` to
`pending` when it is empty, and mark the name processed. -/
def processStep (processed : List String) (r : Req) :
    List String × Req :=
  if processed.contains r.name then (processed, r)
  else
    (r.name :: processed,
     if r.state == "" then updateRequestStatus r "pending" "" "" false else r)

/-- `handleCloudFallback`: if an Instance named `training-<session>`
exists and reports a public IP in the running state, mark the request
allocated on it; if it exists but is still starting, do nothing; if it
does not exist, create it (failure of the create makes the caller set
the request failed). -/
def handleCloudFallback (env : Env) (r : Req) : Req :=
  match env.cloudInst ("training-" ++ r.session) with
  | some inst =>
      if inst.publicIp != "" && inst.instanceState == "running" then
        updateRequestStatus r "allocated" inst.publicIp "ec2" false
      else r
  | none =>
      if env.createOk ("training-" ++ r.session) then r
      else updateRequestStatus r "failed" "" "" false

/-- One iteration of the `allocateVMs` loop: skip unless the request is
pending with no IP; first-fit a static handle (marking it used and
stamping `allocatedAt`), otherwise take the cloud fallback when enabled,
otherwise only log. -/
def allocateOne (env : Env) (now : Nat) (used : List String) (r : Req) :
    List String × Req :=
  if r.state != "pending" || r.vmIP != "" then (used, r)
  else
    let sel := findAvailableStaticVM env.reachable used
    if sel ≠ "" then
      (sel :: used,
       { updateRequestStatus r "allocated" sel "static" false with
         allocatedAt := some now })
    else if r.fallbackEnabled then (used, handleCloudFallback env r)
    else (used, r)

/-- `allocateVMs`: refresh the used-handle set from the listed requests,
then run the allocation loop over them. -/
def allocateVMs (env : Env) (now : Nat) (reqs : List Req) : List Req :=
  (mapAccum (allocateOne env now) (refreshUsedIPs reqs) reqs).2

/-- One iteration of the `updateVMStatus` loop: skip unless allocated
with an IP and unprovisioned; retry while unreachable or inside the
boot wait; then patch to provisioning, wait for SSH and run the
playbooks, ending ready (stamping `readyAt`) or failed with the IP
retained. -/
def statusStep (env : Env) (now : Nat) (r : Req) : Req :=
  if r.state != "allocated" || r.vmIP == "" || r.provisioned then r
  else if !env.reachable r.vmIP then r
  else if (match r.allocatedAt with
           | some t => decide (now - t < getBootWaitTimeSecs r.vmIP)
           | none => false) then r
  else
    let r1 := updateRequestStatus r "provisioning" r.vmIP "" false
    if !env.sshOk r.vmIP then updateRequestStatus r1 "failed" r.vmIP "" false
    else if !env.provisionOk r.vmIP then
      updateRequestStatus r1 "failed" r.vmIP "" false
    else
      { updateRequestStatus r1 "ready" r.vmIP "" true with
        readyAt := some now }

/-- The expiry half of `cleanupExpiredAllocations`: an allocated request
whose `allocatedAt` parses and lies more than one hour in the past is
patched to failed (the patch omits `vmIP`, so the handle is retained). -/
def cleanupStep (now : Nat) (r : Req) : Req :=
  if r.state == "allocated" then
    match r.allocatedAt with
    | some t =>
        if now - t > 3600 then updateRequestStatus r "failed" "" "" false
        else r
    | none => r
  else r

/-- The tracking half of `cleanupExpiredAllocations`: drop processed-set
entries for failed/released requests whose `allocatedAt` parses and is
more than 24 hours old. -/
def prunedProcessed (now : Nat) (reqs : List Req)
    (processed : List String) : List String :=
  processed.filter (fun n =>
    !(reqs.any (fun r =>
        r.name == n && (r.state == "failed" || r.state == "released") &&
        (match r.allocatedAt with
         | some t => decide (now - t > 86400)
         | none => false))))

/-- Controller state that survives across ticks: the request records in
the store and the in-memory processed-name set. -/
structure CState where
  reqs : List Req
  processed : List String
  deriving Repr

/-- One tick of `WatchVMProvisioningRequests`: process, allocate, update
status, clean up (the cleanup pass reads the states listed before its
own patches land, so the processed-set pruning sees the pre-cleanup
snapshot). -/
def tick (env : Env) (now : Nat) (s : CState) : CState :=
  let (p1, rs1) := mapAccum processStep s.processed s.reqs
  let rs2 := allocateVMs env now rs1
  let rs3 := rs2.map (statusStep env now)
  let rs4 := rs3.map (cleanupStep now)
  ⟨rs4, prunedProcessed now rs3 p1⟩

/-- An EC2TrainingVM record as `monitorCloudInstances` reads it. -/
structure EC2VM where
  /-- `labels["kratix-request"]` (`""` when absent) -/
  kratixRequest : String
  vmIP : String
  state : String
  ready : Bool
  instanceId : String
  deriving DecidableEq, Repr

/-- The effect of `monitorCloudInstances` on one request: every listed
EC2 VM that carries a `kratix-request` label, has an IP, and reports
running/ready patches the named request back to allocated on that IP
(type `ec2`, `provisioned` reset to false).  The source's additional
`status.instanceId` patch writes a field this model does not carry. -/
def monitorReq (vms : List EC2VM) (r : Req) : Req :=
  vms.foldl
    (fun r vm =>
      if vm.kratixRequest != "" && vm.vmIP != "" &&
          (vm.state == "running" || vm.ready) &&
          vm.kratixRequest == r.name then
        updateRequestStatus r "allocated" vm.vmIP "ec2" false
      else r)
    r

/-- `monitorCloudInstances`: the patches above applied across the listed
requests (patching by name is a map over the request list). -/
def monitorCloudInstances (vms : List EC2VM) (reqs : List Req) :
    List Req :=
  reqs.map (monitorReq vms)

/-- One tick of `WatchVMProvisioningRequestsWithCloudMonitoring`:
process, allocate, monitor cloud instances, update status, clean up. -/
def tickCM (env : Env) (now : Nat) (vms : List EC2VM) (s : CState) :
    CState :=
  let (p1, rs1) := mapAccum processStep s.processed s.reqs
  let rs2 := allocateVMs env now rs1
  let rsm := monitorCloudInstances vms rs2
  let rs3 := rsm.map (statusStep env now)
  let rs4 := rs3.map (cleanupStep now)
  ⟨rs4, prunedProcessed now rs3 p1⟩

/-! ## The TrainingVM allocator (`AllocateTrainingVMs`) -/

/-- `vmPool` from internal/gvr.go. -/
def vmPool : List String := ["192.168.2.37", "192.168.2.38"]

/-- A TrainingVM status record as `AllocateTrainingVMs` reads it. -/
structure TVM where
  name : String
  state : String
  vmIP : String
  provisioned : Bool
  allocatedAt : Option Nat
  deriving DecidableEq, Repr

/-- Oracles for one `AllocateTrainingVMs` pass: probe and provisioning
outcomes per address, and the session lookup by TrainingVM name
(returning the session's scenario field when the session exists). -/
structure TEnv where
  reachable : String → Bool
  sshOk : String → Bool
  ansibleOk : String → Bool
  sessionScen : String → Option String

/-- The release patch
`{"status":{"vmIP":"","state":"","allocatedAt":"","provisioned":false}}`. -/
def releaseTVM (tvm : TVM) : TVM :=
  { tvm with vmIP := "", state := "", allocatedAt := none,
             provisioned := false }

/-- One iteration of the `AllocateTrainingVMs` loop for one TrainingVM,
threading the shared `usedIPs` set.  An allocated VM waits out the
backend-specific boot grace, is provisioned once reachable (SSH wait
then playbooks, then `provisioned: true`), and when unreachable is
released — except that a public (EC2) handle younger than 10 minutes is
left untouched.  An unallocated VM gets the first-fit static handle, or
the EC2 fallback is triggered (which changes no TrainingVM field this
tick). -/
def trainingStep (env : TEnv) (now : Nat) (used : List String)
    (tvm : TVM) : List String × TVM :=
  if tvm.state != "" && tvm.vmIP != "" then
    if (match tvm.allocatedAt with
        | some t =>
            !tvm.provisioned &&
            decide (now - t < getBootWaitTimeSecs tvm.vmIP)
        | none => false) then (used, tvm)
    else if env.reachable tvm.vmIP then
      if !tvm.provisioned then
        match env.sessionScen tvm.name with
        | none => (used, tvm)
        | some _scen =>
            if !env.sshOk tvm.vmIP then (used, tvm)
            else if !env.ansibleOk tvm.vmIP then (used, tvm)
            else (used, { tvm with provisioned := true })
      else (used, tvm)
    else
      if isPublicIP tvm.vmIP then
        match tvm.allocatedAt with
        | some t =>
            if now - t < 600 then (used, tvm) else (used, releaseTVM tvm)
        | none => (used, releaseTVM tvm)
      else (used, releaseTVM tvm)
  else
    let sel := findFirstFit env.reachable used vmPool
    if sel ≠ "" then
      (sel :: used,
       { tvm with vmIP := sel, state := "allocated",
                  allocatedAt := some now, provisioned := false })
    else (used, tvm)

/-! ## Cross-system propagation bridge
(internal/hobbyfarm_kratix_integration.go) -/

/-- A HobbyFarm VirtualMachine record as the bridge reads it:
`spec.user`, `status.status`, `status.public_ip`. -/
structure VMRec where
  name : String
  user : String
  status : String
  publicIp : String
  deriving DecidableEq, Repr

/-- Bridge-side oracles: the session store (name ↦ `spec.user`, `none`
when the session no longer exists) and the listed VirtualMachines. -/
structure BEnv where
  sessions : String → Option String
  vms : List VMRec

/-- One external write the bridge performs on a VirtualMachine. -/
inductive BWrite where
  | specPatch (vmName : String)
  | statusPatch (vmName : String) (ip : String)
  | labelPatch (vmName : String)
  deriving DecidableEq, Repr

/-- `performVMUpdate`: patch the spec with SSH credentials, the status
subresource with ready/IP fields, and the ready label (writes modelled
as succeeding). -/
def performVMUpdate (vm : VMRec) (vmIP : String) : List BWrite :=
  [BWrite.specPatch vm.name, BWrite.statusPatch vm.name vmIP,
   BWrite.labelPatch vm.name]

/-- The matching loop inside `updateHobbyFarmVirtualMachine`: the first
VM owned by the session's user that needs initial provisioning
(readyforprovisioning, no IP) or is ready with a different IP is
patched; one already ready on this IP ends the scan with no writes;
any other VM is skipped.  Reaching the end of the list (no matching
target) logs and returns success with no writes. -/
def findAndUpdateVM (sessionUser vmIP : String) :
    List VMRec → List BWrite
  | [] => []
  | vm :: rest =>
      if vm.user == sessionUser then
        if vm.status == "readyforprovisioning" && vm.publicIp == "" then
          performVMUpdate vm vmIP
        else if vm.status == "ready" && vm.publicIp != vmIP then
          performVMUpdate vm vmIP
        else if vm.status == "ready" && vm.publicIp == vmIP then []
        else findAndUpdateVM sessionUser vmIP rest
      else findAndUpdateVM sessionUser vmIP rest

/-- `updateHobbyFarmVirtualMachine`: a vanished session is treated as
success with no writes; otherwise scan the VirtualMachines for a target.
Every path of the source returns nil (store errors are outside the
model), so the result is just the writes performed. -/
def updateHobbyFarmVirtualMachine (env : BEnv)
    (sessionName vmIP : String) : List BWrite :=
  match env.sessions sessionName with
  | none => []
  | some sessionUser => findAndUpdateVM sessionUser vmIP env.vms

/-- The guards at the top of the `updateHobbyFarmVMsFromKratix` loop:
ready, provisioned, with an IP, created by the hobbyfarm integration,
and carrying non-empty session and user labels. -/
def bridgeEligible (r : Req) : Bool :=
  r.state == "ready" && r.provisioned && r.vmIP != "" &&
  r.sourceHobbyfarm && r.labelSession != "" && r.labelUser != ""

/-- The ledger key `fmt.Sprintf("%s-%s", sessionName, vmIP)`. -/
def updateKey (r : Req) : String :=
  r.labelSession ++ "-" ++ r.vmIP

/-- `updateHobbyFarmVMsFromKratix`: walk the requests; skip ineligible
ones and ones whose key is already in the `updatedVMs` ledger; project
the rest and (since the update call returns nil on every modelled path)
add their key to the ledger.  Returns the final ledger and the
concatenated external writes. -/
def bridgeStep (env : BEnv) :
    List Req → List String → List String × List BWrite
  | [], led => (led, [])
  | r :: rest, led =>
      if !bridgeEligible r then bridgeStep env rest led
      else if led.contains (updateKey r) then bridgeStep env rest led
      else
        let ws := updateHobbyFarmVirtualMachine env r.labelSession r.vmIP
        let (led', ws') := bridgeStep env rest (updateKey r :: led)
        (led', ws ++ ws')

/-! ## First-fit allocation (C9) -/

lemma findFirstFit_eq_findSome (reachable : String → Bool)
    (used : List String) :
    ∀ pool : List String,
      findFirstFit reachable used pool =
        (match pool.find? (fun ip => !used.contains ip && reachable ip) with
         | some ip => ip
         | none => "") := by
  intro pool
  induction pool with
  | nil => rfl
  | cons ip rest ih =>
      by_cases hu : ip ∈ used
      · simp [findFirstFit, List.find?, hu, ih]
      · by_cases hr : reachable ip = true
        · simp [findFirstFit, List.find?, hu, hr]
        · simp [findFirstFit, List.find?, hu, hr, ih]

lemma findFirstFit_empty_iff (reachable : String → Bool)
    (used : List String) :
    ∀ pool : List String, (∀ ip ∈ pool, ip ≠ "") →
      (findFirstFit reachable used pool = "" ↔
        ∀ ip ∈ pool, ip ∈ used ∨ reachable ip = false) := by
  intro pool
  induction pool with
  | nil => simp [findFirstFit]
  | cons ip rest ih =>
      intro hne
      have ih' := ih (fun x hx => hne x (List.mem_cons_of_mem _ hx))
      by_cases hu : ip ∈ used
      · simp [findFirstFit, hu, List.forall_mem_cons, ih']
      · by_cases hr : reachable ip = true
        · simp [findFirstFit, hu, hr, List.forall_mem_cons,
                hne ip (List.mem_cons_self ip rest)]
        · have hr' : reachable ip = false := by
            simpa using hr
          simp [findFirstFit, hu, hr', List.forall_mem_cons, ih']

/-- C9.  First-fit static allocation: `findAvailableStaticVM` returns
the first pool address (in declaration order `"192.168.2.37"`,
`"192.168.2.38"`) that is neither in the used set nor failing the
liveness probe, and returns `""` exactly when no pool member
qualifies. -/
theorem c9_first_fit (reachable : String → Bool) (used : List String) :
    findAvailableStaticVM reachable used =
      (match staticVMPool.find?
          (fun ip => !used.contains ip && reachable ip) with
       | some ip => ip
       | none => "") ∧
    (findAvailableStaticVM reachable used = "" ↔
      ∀ ip ∈ staticVMPool, ip ∈ used ∨ reachable ip = false) ∧
    staticVMPool = ["192.168.2.37", "192.168.2.38"] := by
  refine ⟨findFirstFit_eq_findSome reachable used staticVMPool, ?_, rfl⟩
  exact findFirstFit_empty_iff reachable used staticVMPool (by decide)

/-! ## Hard allocation timeout (C7) -/

/-- C7, counterexample.  The claim says a request in state
`provisioning` whose `allocatedAt` lies more than one hour in the past
is set to `failed` by the cleanup pass; the cleanup pass only matches
state `allocated`, so a two-hour-old provisioning request is left
untouched. -/
theorem c7_counterexample :
    (cleanupStep 7200
      { name := "r7", user := "u", session := "s",
        fallbackEnabled := false, state := "provisioning",
        vmIP := "192.168.2.37", vmType := "static", provisioned := false,
        allocatedAt := some 0, readyAt := none,
        sourceHobbyfarm := false, labelSession := "",
        labelUser := "" }).state = "provisioning" := by decide

/-- C7, amended.  The per-tick cleanup pass fails only requests in state
`allocated` whose `allocatedAt` parses and lies more than one hour in
the past (retaining the handle, since the failure patch omits `vmIP`);
requests in state `provisioning` are not touched by the cleanup pass. -/
theorem c7_cleanup_allocated_only (now t : Nat) (r : Req) :
    (r.state = "allocated" → r.allocatedAt = some t → now - t > 3600 →
      (cleanupStep now r).state = "failed" ∧
      (cleanupStep now r).vmIP = r.vmIP) ∧
    (r.state = "provisioning" → cleanupStep now r = r) := by
  constructor
  · intro hs ha ht
    simp [cleanupStep, hs, ha, ht, updateRequestStatus]
  · intro hs
    simp [cleanupStep, hs]

theorem c7_witness :
    (let r : Req :=
      { name := "w7", user := "u", session := "s",
        fallbackEnabled := false, state := "allocated",
        vmIP := "192.168.2.38", vmType := "static", provisioned := false,
        allocatedAt := some 0, readyAt := none,
        sourceHobbyfarm := false, labelSession := "", labelUser := "" };
     (cleanupStep 7200 r).state = "failed" ∧
     (cleanupStep 7200 r).vmIP = r.vmIP) :=
  (c7_cleanup_allocated_only 7200 0 _).1 rfl rfl (by decide)

/-! ## Exhaustion with fallback disabled (C3) -/

/-- A pending request with the cloud fallback disabled. -/
def c3req : Req :=
  { name := "r3", user := "u3", session := "s3",
    fallbackEnabled := false, state := "pending",
    vmIP := "", vmType := "", provisioned := false,
    allocatedAt := none, readyAt := none,
    sourceHobbyfarm := false, labelSession := "", labelUser := "" }

/-- An environment in which every liveness probe fails, so no static
handle is available. -/
def c3env : Env :=
  { reachable := fun _ => false, sshOk := fun _ => false,
    provisionOk := fun _ => false, cloudInst := fun _ => none,
    createOk := fun _ => false }

/-- C3, counterexample.  The claim says a pending request with no
available static handle and fallback disabled transitions to `failed`
in the same tick; running a full tick on such a request leaves it in
state `pending` (the source only logs in that branch and writes
nothing). -/
theorem c3_counterexample :
    ((tick c3env 0 ⟨[c3req], []⟩).reqs.map (·.state)) = ["pending"] := by
  decide

/-- C3, amended.  When a pending request with no `status.vmIP` finds no
available static handle and its cloud fallback is disabled, the
allocation step leaves the request entirely unchanged — it stays
`pending` with an empty handle and is reconsidered on the next tick;
no `failed` transition occurs. -/
theorem c3_exhaustion_stays_pending (env : Env) (now : Nat)
    (used : List String) (r : Req)
    (hstate : r.state = "pending") (hip : r.vmIP = "")
    (hnone : findAvailableStaticVM env.reachable used = "")
    (hfb : r.fallbackEnabled = false) :
    allocateOne env now used r = (used, r) := by
  simp [allocateOne, hstate, hip, hnone, hfb]

theorem c3_witness :
    c3req.state = "pending" ∧ c3req.vmIP = "" ∧
    findAvailableStaticVM c3env.reachable [] = "" ∧
    c3req.fallbackEnabled = false ∧
    allocateOne c3env 0 [] c3req = ([], c3req) :=
  ⟨rfl, rfl, by decide, rfl,
   c3_exhaustion_stays_pending c3env 0 [] c3req rfl rfl (by decide) rfl⟩

/-! ## Provisioning failure and the used-handle set (C6) -/

/-- An allocated, unprovisioned request holding the first static pool
handle, allocated at time 0. -/
def c6req : Req :=
  { name := "r6", user := "u6", session := "s6",
    fallbackEnabled := false, state := "allocated",
    vmIP := "192.168.2.37", vmType := "static", provisioned := false,
    allocatedAt := some 0, readyAt := none,
    sourceHobbyfarm := false, labelSession := "", labelUser := "" }

/-- An environment in which the machine is reachable but the SSH wait
fails, so provisioning fails. -/
def c6env : Env :=
  { reachable := fun _ => true, sshOk := fun _ => false,
    provisionOk := fun _ => false, cloudInst := fun _ => none,
    createOk := fun _ => false }

/-- C6, counterexample.  The claim says the handle of a request failed
by a provisioning error stays marked used (excluded from static-pool
allocation) until the 24-hour TTL.  After the failure transition the
request retains its handle, but `refreshUsedIPs` counts only
allocated/provisioning/ready states, so the very next allocation pass
hands the same address out again. -/
theorem c6_counterexample :
    (statusStep c6env 1000 c6req).state = "failed" ∧
    (statusStep c6env 1000 c6req).vmIP = "192.168.2.37" ∧
    refreshUsedIPs [statusStep c6env 1000 c6req] = [] ∧
    findAvailableStaticVM (fun _ => true)
      (refreshUsedIPs [statusStep c6env 1000 c6req]) = "192.168.2.37" := by
  decide

/-- C6, amended.  A request in the provisioning pass whose SSH wait or
playbook run fails transitions to `failed` with its `resourceHandle`
(`status.vmIP`) retained — but the per-tick `usedHandles` recomputation
includes only allocated/provisioning/ready requests, so the failed
request's handle is *not* marked used and is immediately available to
static-pool allocation on the next tick (no 24-hour exclusion). -/
theorem c6_failed_handle_not_used (env : Env) (now t : Nat) (r : Req)
    (hstate : r.state = "allocated") (hip : r.vmIP ≠ "")
    (hprov : r.provisioned = false)
    (hreach : env.reachable r.vmIP = true)
    (halloc : r.allocatedAt = some t)
    (hwait : ¬(now - t < getBootWaitTimeSecs r.vmIP))
    (hfail : env.sshOk r.vmIP = false ∨ env.provisionOk r.vmIP = false) :
    (statusStep env now r).state = "failed" ∧
    (statusStep env now r).vmIP = r.vmIP ∧
    (refreshUsedIPs [statusStep env now r]).contains r.vmIP = false := by
  have hbody : statusStep env now r =
      updateRequestStatus
        (updateRequestStatus r "provisioning" r.vmIP "" false)
        "failed" r.vmIP "" false := by
    rcases hfail with hf | hf
    · simp [statusStep, hstate, hip, hprov, hreach, halloc, hwait, hf]
    · by_cases hssh : env.sshOk r.vmIP = true
      · simp [statusStep, hstate, hip, hprov, hreach, halloc, hwait,
              hssh, hf]
      · have hssh' : env.sshOk r.vmIP = false := by simpa using hssh
        simp [statusStep, hstate, hip, hprov, hreach, halloc, hwait,
              hssh']
  rw [hbody]
  refine ⟨rfl, by simp [updateRequestStatus, hip], ?_⟩
  simp [refreshUsedIPs, updateRequestStatus, isLiveState, hip]

/-! ## Bridge idempotence via the ledger (C4) -/

lemma bridge_ledger_mono (env : BEnv) :
    ∀ (rs : List Req) (led : List String) (k : String),
      k ∈ led → k ∈ (bridgeStep env rs led).1 := by
  intro rs
  induction rs with
  | nil => intro led k h; simpa [bridgeStep] using h
  | cons r rest ih =>
      intro led k h
      by_cases he : bridgeEligible r = true
      · by_cases hc : updateKey r ∈ led
        · simpa [bridgeStep, he, hc] using ih led k h
        · have hrec := ih (updateKey r :: led) k (List.mem_cons_of_mem _ h)
          rcases hp : bridgeStep env rest (updateKey r :: led) with ⟨l', w'⟩
          rw [hp] at hrec
          simpa [bridgeStep, he, hc, hp] using hrec
      · simpa [bridgeStep, he] using ih led k h

lemma bridge_adds_eligible (env : BEnv) :
    ∀ (rs : List Req) (led : List String) (r : Req), r ∈ rs →
      bridgeEligible r = true →
      updateKey r ∈ (bridgeStep env rs led).1 := by
  intro rs
  induction rs with
  | nil => intro led r hr; cases hr
  | cons a rest ih =>
      intro led r hr he
      rcases List.mem_cons.mp hr with rfl | hr'
      · by_cases hc : updateKey r ∈ led
        · simpa [bridgeStep, he, hc] using
            bridge_ledger_mono env rest led _ hc
        · have hrec := bridge_ledger_mono env rest (updateKey r :: led) _
            (List.mem_cons_self _ _)
          rcases hp : bridgeStep env rest (updateKey r :: led) with ⟨l', w'⟩
          rw [hp] at hrec
          simpa [bridgeStep, he, hc, hp] using hrec
      · by_cases hea : bridgeEligible a = true
        · by_cases hc : updateKey a ∈ led
          · simpa [bridgeStep, hea, hc] using ih led r hr' he
          · have hrec := ih (updateKey a :: led) r hr' he
            rcases hp : bridgeStep env rest (updateKey a :: led) with ⟨l', w'⟩
            rw [hp] at hrec
            simpa [bridgeStep, hea, hc, hp] using hrec
        · simpa [bridgeStep, hea] using ih led r hr' he

lemma bridge_no_writes (env : BEnv) :
    ∀ (rs : List Req) (led : List String),
      (∀ r ∈ rs, bridgeEligible r = true → updateKey r ∈ led) →
      (bridgeStep env rs led).2 = [] := by
  intro rs
  induction rs with
  | nil => intro led _; rfl
  | cons a rest ih =>
      intro led hall
      have hrest := ih led (fun r hr he => hall r (List.mem_cons_of_mem _ hr) he)
      by_cases hea : bridgeEligible a = true
      · have hc := hall a (List.mem_cons_self a rest) hea
        simpa [bridgeStep, hea, hc] using hrest
      · simpa [bridgeStep, hea] using hrest

/-- C4.  Idempotent propagation via the ledger: running the bridge step
a second time on an unchanged request set — with the ledger produced by
the first run — performs no external write at all; every eligible
(ready, provisioned, hobbyfarm-sourced) request's `(sessionName, vmIP)`
key is in the ledger after the first run, so the second run skips each
of them without patching.  This depends only on the request list and
the ledger, so reconciler re-runs in between (which do not touch the
ledger) cannot affect it. -/
theorem c4_bridge_idempotent (env : BEnv) (reqs : List Req)
    (led : List String) :
    (bridgeStep env reqs (bridgeStep env reqs led).1).2 = [] := by
  apply bridge_no_writes
  intro r hr he
  exact bridge_adds_eligible env reqs led r hr he

/-! ## Missing propagation target and the ledger (C5) -/

/-- The disjunction of the three match cases in the source's
VirtualMachine scan: owned by the session's user and either awaiting
initial provisioning or already in status `ready`.  A VM matching none
of these is skipped and the scan continues. -/
def vmMatches (user ip : String) (vm : VMRec) : Bool :=
  vm.user == user &&
  ((vm.status == "readyforprovisioning" && vm.publicIp == "") ||
   (vm.status == "ready" && vm.publicIp != ip) ||
   (vm.status == "ready" && vm.publicIp == ip))

lemma findAndUpdateVM_no_match (u ip : String) :
    ∀ vms : List VMRec, (∀ vm ∈ vms, vmMatches u ip vm = false) →
      findAndUpdateVM u ip vms = [] := by
  intro vms
  induction vms with
  | nil => intro _; rfl
  | cons vm rest ih =>
      intro hall
      have hvm := hall vm (List.mem_cons_self vm rest)
      have hrest := ih (fun v hv => hall v (List.mem_cons_of_mem _ hv))
      by_cases hu : (vm.user == u) = true
      · have hcases : ((vm.status == "readyforprovisioning" &&
            vm.publicIp == "") ||
            (vm.status == "ready" && vm.publicIp != ip) ||
            (vm.status == "ready" && vm.publicIp == ip)) = false := by
          simp only [vmMatches, hu, Bool.true_and] at hvm
          exact hvm
        simp only [Bool.or_eq_false_iff] at hcases
        obtain ⟨⟨h1, h2⟩, h3⟩ := hcases
        simp [findAndUpdateVM, hu, h1, h2, h3, hrest]
      · have hu' : (vm.user == u) = false := by simpa using hu
        simp [findAndUpdateVM, hu', hrest]

/-- C5, concrete environment: the session exists (user `alice`) but
there is no VirtualMachine at all, so no target can match. -/
def c5env : BEnv :=
  { sessions := fun n => if n == "s1" then some "alice" else none,
    vms := [] }

/-- C5, concrete request: ready, provisioned, hobbyfarm-sourced. -/
def c5req : Req :=
  { name := "s1", user := "alice", session := "s1",
    fallbackEnabled := true, state := "ready",
    vmIP := "10.0.0.5", vmType := "static", provisioned := true,
    allocatedAt := some 0, readyAt := some 100,
    sourceHobbyfarm := true, labelSession := "s1", labelUser := "alice" }

/-- C5, counterexample.  The claim says that when no matching target
VirtualMachine is found, no ledger entry is added so projection is
retried next tick.  In the source the scan returns nil in that case,
the caller interprets nil as success, and the `(sessionName, vmIP)`
key *is* added to the ledger (and no write was performed). -/
theorem c5_counterexample :
    (bridgeStep c5env [c5req] []).1 = ["s1-10.0.0.5"] ∧
    (bridgeStep c5env [c5req] []).2 = [] := by decide

/-- C5, amended.  For a ready, eligible request whose session still
exists but for which no VirtualMachine matches any of the scan's cases,
the bridge performs no external write for it, yet the update call
returns success, so the `(sessionName, vmIP)` key **is** added to the
`updatedVMs` ledger — projection is therefore *not* retried on later
ticks (it is skipped until the tracking entry is pruned). -/
theorem c5_no_target_adds_ledger (env : BEnv) (r : Req)
    (rest : List Req) (led : List String) (u : String)
    (he : bridgeEligible r = true)
    (hsess : env.sessions r.labelSession = some u)
    (hnomatch : ∀ vm ∈ env.vms, vmMatches u r.vmIP vm = false)
    (hc : updateKey r ∉ led) :
    (bridgeStep env (r :: rest) led).2 =
      (bridgeStep env rest (updateKey r :: led)).2 ∧
    updateKey r ∈ (bridgeStep env (r :: rest) led).1 := by
  have hupd : updateHobbyFarmVirtualMachine env r.labelSession r.vmIP = [] := by
    simp [updateHobbyFarmVirtualMachine, hsess,
          findAndUpdateVM_no_match u r.vmIP env.vms hnomatch]
  have hmono := bridge_ledger_mono env rest (updateKey r :: led) _
    (List.mem_cons_self _ _)
  rcases hp : bridgeStep env rest (updateKey r :: led) with ⟨l', w'⟩
  rw [hp] at hmono
  constructor
  · simp [bridgeStep, he, hc, hupd, hp]
  · simpa [bridgeStep, he, hc, hupd, hp] using hmono

theorem c5_witness :
    bridgeEligible c5req = true ∧
    c5env.sessions c5req.labelSession = some "alice" ∧
    (∀ vm ∈ c5env.vms, vmMatches "alice" c5req.vmIP vm = false) ∧
    updateKey c5req ∉ ([] : List String) ∧
    ((bridgeStep c5env [c5req] []).2 =
       (bridgeStep c5env [] [updateKey c5req]).2 ∧
     updateKey c5req ∈ (bridgeStep c5env [c5req] []).1) :=
  ⟨by decide, by decide, (by intro vm hvm; cases hvm), (by decide),
   c5_no_target_adds_ledger c5env c5req [] [] "alice" (by decide)
     (by decide) (by intro vm hvm; cases hvm) (by decide)⟩

theorem c6_witness :
    c6req.state = "allocated" ∧ c6req.vmIP ≠ "" ∧
    c6req.provisioned = false ∧ c6env.reachable c6req.vmIP = true ∧
    c6req.allocatedAt = some 0 ∧
    ¬(1000 - 0 < getBootWaitTimeSecs c6req.vmIP) ∧
    c6env.sshOk c6req.vmIP = false ∧
    ((statusStep c6env 1000 c6req).state = "failed" ∧
     (statusStep c6env 1000 c6req).vmIP = c6req.vmIP ∧
     (refreshUsedIPs [statusStep c6env 1000 c6req]).contains c6req.vmIP =
       false) :=
  ⟨rfl, by decide, rfl, rfl, rfl, by decide, rfl,
   c6_failed_handle_not_used c6env 1000 0 c6req rfl (by decide) rfl rfl
     rfl (by decide) (Or.inl rfl)⟩

/-! ## Elastic-backend patience boundary (C8) -/

/-- C8.  For a TrainingVM allocated an elastic (public-IP) handle at
time `t` whose liveness probe keeps failing, a tick at `t + 540`
(9 minutes) leaves the record untouched — still allocated, handle and
`allocatedAt` unchanged — while any tick at or after `t + 600`
(10 minutes) releases it, clearing `vmIP`, `state`, `allocatedAt` and
`provisioned`.  The 10-minute elastic grace is the exact boundary. -/
theorem c8_elastic_grace_boundary (env : TEnv) (used : List String)
    (tvm : TVM) (t : Nat)
    (hstate : tvm.state ≠ "") (hpub : isPublicIP tvm.vmIP = true)
    (hreach : env.reachable tvm.vmIP = false)
    (halloc : tvm.allocatedAt = some t)
    (hprov : tvm.provisioned = false) :
    (trainingStep env (t + 540) used tvm).2 = tvm ∧
    (∀ now, t + 600 ≤ now →
      (trainingStep env now used tvm).2 = releaseTVM tvm) := by
  have hip : tvm.vmIP ≠ "" := by
    intro hempty
    rw [hempty] at hpub
    exact absurd hpub (by decide)
  constructor
  · have h1 : t + 540 - t = 540 := by omega
    simp [trainingStep, hstate, hip, halloc, hprov, hreach, hpub,
          getBootWaitTimeSecs, h1]
  · intro now hnow
    have h2 : ¬(now - t < 120) := by omega
    have h3 : ¬(now - t < 600) := by omega
    simp [trainingStep, hstate, hip, halloc, hprov, hreach, hpub,
          getBootWaitTimeSecs, h2, h3]

/-- C8, concrete instance: an elastic handle with a failing probe. -/
def c8tvm : TVM :=
  { name := "tvm8", state := "allocated", vmIP := "3.4.5.6",
    provisioned := false, allocatedAt := some 0 }

/-- C8, environment in which every probe fails. -/
def c8env : TEnv :=
  { reachable := fun _ => false, sshOk := fun _ => false,
    ansibleOk := fun _ => false, sessionScen := fun _ => none }

theorem c8_witness :
    c8tvm.state ≠ "" ∧ isPublicIP c8tvm.vmIP = true ∧
    c8env.reachable c8tvm.vmIP = false ∧ c8tvm.allocatedAt = some 0 ∧
    c8tvm.provisioned = false ∧
    ((trainingStep c8env (0 + 540) [] c8tvm).2 = c8tvm ∧
     (∀ now, 0 + 600 ≤ now →
       (trainingStep c8env now [] c8tvm).2 = releaseTVM c8tvm)) :=
  ⟨by decide, by decide, rfl, rfl, rfl,
   c8_elastic_grace_boundary c8env [] c8tvm 0 (by decide) (by decide)
     rfl rfl rfl⟩

/-! ## Backend classification of private addresses (C10) -/

/-- Canonical character of a decimal digit, for stating what an octet's
characters must have been. -/
def digitChar (n : Nat) : Char :=
  if n = 0 then '0' else if n = 1 then '1' else if n = 2 then '2'
  else if n = 3 then '3' else if n = 4 then '4' else if n = 5 then '5'
  else if n = 6 then '6' else if n = 7 then '7' else if n = 8 then '8'
  else '9'

lemma digitOf_inj {c : Char} {d : Nat} (h : digitOf c = some d) :
    c = digitChar d ∧ d ≤ 9 := by
  unfold digitOf at h
  split_ifs at h with h0 h1 h2 h3 h4 h5 h6 h7 h8 h9
  · injection h with h'; subst h'; exact ⟨by rw [h0]; decide, by omega⟩
  · injection h with h'; subst h'; exact ⟨by rw [h1]; decide, by omega⟩
  · injection h with h'; subst h'; exact ⟨by rw [h2]; decide, by omega⟩
  · injection h with h'; subst h'; exact ⟨by rw [h3]; decide, by omega⟩
  · injection h with h'; subst h'; exact ⟨by rw [h4]; decide, by omega⟩
  · injection h with h'; subst h'; exact ⟨by rw [h5]; decide, by omega⟩
  · injection h with h'; subst h'; exact ⟨by rw [h6]; decide, by omega⟩
  · injection h with h'; subst h'; exact ⟨by rw [h7]; decide, by omega⟩
  · injection h with h'; subst h'; exact ⟨by rw [h8]; decide, by omega⟩
  · injection h with h'; subst h'; exact ⟨by rw [h9]; decide, by omega⟩

lemma parseOctet_eq_chars {p : List Char} {n : Nat}
    (h : parseOctet p = some n) :
    (n ≤ 9 ∧ p = [digitChar n]) ∨
    (10 ≤ n ∧ n ≤ 99 ∧ p = [digitChar (n / 10), digitChar (n % 10)]) ∨
    (100 ≤ n ∧ n ≤ 255 ∧
      p = [digitChar (n / 100), digitChar (n / 10 % 10),
           digitChar (n % 10)]) := by
  rcases p with _ | ⟨c1, _ | ⟨c2, _ | ⟨c3, _ | ⟨c4, rest⟩⟩⟩⟩
  · simp [parseOctet] at h
  · left
    obtain ⟨hc, hd⟩ := digitOf_inj (by simpa [parseOctet] using h)
    exact ⟨hd, by rw [hc]⟩
  · right; left
    rcases hd1 : digitOf c1 with _ | d1
    · simp [parseOctet, hd1] at h
    rcases hd2 : digitOf c2 with _ | d2
    · simp [parseOctet, hd1, hd2] at h
    simp only [parseOctet, hd1, hd2] at h
    by_cases hz : d1 ≠ 0
    · rw [if_pos hz] at h
      obtain rfl : 10 * d1 + d2 = n := by injection h
      obtain ⟨e1, b1⟩ := digitOf_inj hd1
      obtain ⟨e2, b2⟩ := digitOf_inj hd2
      have f1 : d1 = (10 * d1 + d2) / 10 := by omega
      have f2 : d2 = (10 * d1 + d2) % 10 := by omega
      exact ⟨by omega, by omega, by rw [e1, e2, ← f1, ← f2]⟩
    · rw [if_neg hz] at h
      cases h
  · right; right
    rcases hd1 : digitOf c1 with _ | d1
    · simp [parseOctet, hd1] at h
    rcases hd2 : digitOf c2 with _ | d2
    · simp [parseOctet, hd1, hd2] at h
    rcases hd3 : digitOf c3 with _ | d3
    · simp [parseOctet, hd1, hd2, hd3] at h
    simp only [parseOctet, hd1, hd2, hd3] at h
    by_cases hz : d1 ≠ 0 ∧ 100 * d1 + 10 * d2 + d3 ≤ 255
    · rw [if_pos hz] at h
      obtain rfl : 100 * d1 + 10 * d2 + d3 = n := by injection h
      obtain ⟨e1, b1⟩ := digitOf_inj hd1
      obtain ⟨e2, b2⟩ := digitOf_inj hd2
      obtain ⟨e3, b3⟩ := digitOf_inj hd3
      obtain ⟨hz1, hz2⟩ := hz
      have f1 : d1 = (100 * d1 + 10 * d2 + d3) / 100 := by omega
      have f2 : d2 = (100 * d1 + 10 * d2 + d3) / 10 % 10 := by omega
      have f3 : d3 = (100 * d1 + 10 * d2 + d3) % 10 := by omega
      exact ⟨by omega, hz2, by rw [e1, e2, e3, ← f1, ← f2, ← f3]⟩
    · rw [if_neg hz] at h
      cases h
  · simp [parseOctet] at h

lemma parseOctet_192 {p : List Char} (h : parseOctet p = some 192) :
    p = ['1', '9', '2'] := by
  rcases parseOctet_eq_chars h with ⟨h9, _⟩ | ⟨_, h99, _⟩ | ⟨_, _, hp⟩
  · omega
  · omega
  · simpa [digitChar] using hp

lemma parseOctet_168 {p : List Char} (h : parseOctet p = some 168) :
    p = ['1', '6', '8'] := by
  rcases parseOctet_eq_chars h with ⟨h9, _⟩ | ⟨_, h99, _⟩ | ⟨_, _, hp⟩
  · omega
  · omega
  · simpa [digitChar] using hp

lemma parseOctet_10 {p : List Char} (h : parseOctet p = some 10) :
    p = ['1', '0'] := by
  rcases parseOctet_eq_chars h with ⟨h9, _⟩ | ⟨_, _, hp⟩ | ⟨h100, _, _⟩
  · omega
  · simpa [digitChar] using hp
  · omega

lemma parseOctet_127 {p : List Char} (h : parseOctet p = some 127) :
    p = ['1', '2', '7'] := by
  rcases parseOctet_eq_chars h with ⟨h9, _⟩ | ⟨_, h99, _⟩ | ⟨_, _, hp⟩
  · omega
  · omega
  · simpa [digitChar] using hp

lemma parseOctet_169 {p : List Char} (h : parseOctet p = some 169) :
    p = ['1', '6', '9'] := by
  rcases parseOctet_eq_chars h with ⟨h9, _⟩ | ⟨_, h99, _⟩ | ⟨_, _, hp⟩
  · omega
  · omega
  · simpa [digitChar] using hp

lemma parseOctet_254 {p : List Char} (h : parseOctet p = some 254) :
    p = ['2', '5', '4'] := by
  rcases parseOctet_eq_chars h with ⟨h9, _⟩ | ⟨_, h99, _⟩ | ⟨_, _, hp⟩
  · omega
  · omega
  · simpa [digitChar] using hp

lemma splitOnDot_ne_nil : ∀ l : List Char, splitOnDot l ≠ [] := by
  intro l
  cases l with
  | nil => simp [splitOnDot]
  | cons c rest =>
      by_cases h : c = '.'
      · simp [splitOnDot, h]
      · simp only [splitOnDot, h, if_neg, ite_false]
        cases hs : splitOnDot rest <;> simp

/-- Inverse of `splitOnDot`: re-join the fields with dots. -/
def joinDots : List (List Char) → List Char
  | [] => []
  | [p] => p
  | p :: ps => p ++ '.' :: joinDots ps

lemma joinDots_cons (p : List Char) (ps : List (List Char))
    (h : ps ≠ []) : joinDots (p :: ps) = p ++ '.' :: joinDots ps := by
  cases ps with
  | nil => exact absurd rfl h
  | cons q qs => rfl

lemma joinDots_splitOnDot : ∀ l : List Char, joinDots (splitOnDot l) = l := by
  intro l
  induction l with
  | nil => rfl
  | cons c rest ih =>
      by_cases h : c = '.'
      · subst h
        have hsplit : splitOnDot ('.' :: rest) = [] :: splitOnDot rest := by
          simp [splitOnDot]
        rw [hsplit, joinDots_cons _ _ (splitOnDot_ne_nil rest), ih]
        simp
      · rcases hs : splitOnDot rest with _ | ⟨q, qs⟩
        · exact absurd hs (splitOnDot_ne_nil rest)
        · have hsplit : splitOnDot (c :: rest) = (c :: q) :: qs := by
            simp [splitOnDot, h, hs]
          rw [hsplit]
          rw [hs] at ih
          cases qs with
          | nil =>
              have : q = rest := ih
              simp [joinDots, this]
          | cons q2 qs2 =>
              rw [joinDots_cons _ _ (by simp)]
              rw [joinDots_cons _ _ (by simp)] at ih
              rw [← ih]
              simp

lemma parseIPv4_split {s : List Char} {a b c d : Nat}
    (h : parseIPv4 s = some (a, b, c, d)) :
    ∃ pa pb pc pd, splitOnDot s = [pa, pb, pc, pd] ∧
      parseOctet pa = some a ∧ parseOctet pb = some b ∧
      parseOctet pc = some c ∧ parseOctet pd = some d := by
  rcases hs : splitOnDot s with _ | ⟨pa, tl1⟩
  · simp [parseIPv4, hs] at h
  rcases tl1 with _ | ⟨pb, tl2⟩
  · simp [parseIPv4, hs] at h
  rcases tl2 with _ | ⟨pc, tl3⟩
  · simp [parseIPv4, hs] at h
  rcases tl3 with _ | ⟨pd, tl4⟩
  · simp [parseIPv4, hs] at h
  rcases tl4 with _ | ⟨pe, rest⟩
  · simp only [parseIPv4, hs] at h
    rcases ha : parseOctet pa with _ | x
    · simp [ha] at h
    rcases hb : parseOctet pb with _ | y
    · simp [ha, hb] at h
    rcases hc' : parseOctet pc with _ | z
    · simp [ha, hb, hc'] at h
    rcases hd' : parseOctet pd with _ | w
    · simp [ha, hb, hc', hd'] at h
    simp only [ha, hb, hc', hd', Option.some.injEq, Prod.mk.injEq] at h
    obtain ⟨rfl, rfl, rfl, rfl⟩ := h
    exact ⟨pa, pb, pc, pd, rfl, ha, hb, hc', hd'⟩
  · simp [parseIPv4, hs] at h

lemma prefix192168 {ip : String} {c d : Nat}
    (h : parseIPv4 ip.data = some (192, 168, c, d)) :
    "192.168.".data.isPrefixOf ip.data = true := by
  obtain ⟨pa, pb, pc, pd, hs, ha, hb, _, _⟩ := parseIPv4_split h
  have hrec : ip.data = joinDots [pa, pb, pc, pd] := by
    rw [← hs, joinDots_splitOnDot]
  rw [parseOctet_192 ha, parseOctet_168 hb] at hrec
  have hdata : "192.168.".data = ['1', '9', '2', '.', '1', '6', '8', '.'] := rfl
  rw [hdata, hrec]
  simp [joinDots, List.isPrefixOf]

lemma prefix10 {ip : String} {b c d : Nat}
    (h : parseIPv4 ip.data = some (10, b, c, d)) :
    "10.".data.isPrefixOf ip.data = true := by
  obtain ⟨pa, pb, pc, pd, hs, ha, _, _, _⟩ := parseIPv4_split h
  have hrec : ip.data = joinDots [pa, pb, pc, pd] := by
    rw [← hs, joinDots_splitOnDot]
  rw [parseOctet_10 ha] at hrec
  have hdata : "10.".data = ['1', '0', '.'] := rfl
  rw [hdata, hrec]
  simp [joinDots, List.isPrefixOf]

lemma prefix127 {ip : String} {b c d : Nat}
    (h : parseIPv4 ip.data = some (127, b, c, d)) :
    "127.".data.isPrefixOf ip.data = true := by
  obtain ⟨pa, pb, pc, pd, hs, ha, _, _, _⟩ := parseIPv4_split h
  have hrec : ip.data = joinDots [pa, pb, pc, pd] := by
    rw [← hs, joinDots_splitOnDot]
  rw [parseOctet_127 ha] at hrec
  have hdata : "127.".data = ['1', '2', '7', '.'] := rfl
  rw [hdata, hrec]
  simp [joinDots, List.isPrefixOf]

lemma prefix169254 {ip : String} {c d : Nat}
    (h : parseIPv4 ip.data = some (169, 254, c, d)) :
    "169.254.".data.isPrefixOf ip.data = true := by
  obtain ⟨pa, pb, pc, pd, hs, ha, hb, _, _⟩ := parseIPv4_split h
  have hrec : ip.data = joinDots [pa, pb, pc, pd] := by
    rw [← hs, joinDots_splitOnDot]
  rw [parseOctet_169 ha, parseOctet_254 hb] at hrec
  have hdata : "169.254.".data = ['1', '6', '9', '.', '2', '5', '4', '.'] := rfl
  rw [hdata, hrec]
  simp [joinDots, List.isPrefixOf]

/-- Membership of an address string in 192.168.0.0/16: it parses as a
dotted quad whose first two octets are 192 and 168. -/
def inRange192168 (ip : String) : Prop :=
  ∃ c d, parseIPv4 ip.data = some (192, 168, c, d)

/-- Membership in 10.0.0.0/8. -/
def inRange10 (ip : String) : Prop :=
  ∃ b c d, parseIPv4 ip.data = some (10, b, c, d)

/-- Membership in 127.0.0.0/8. -/
def inRange127 (ip : String) : Prop :=
  ∃ b c d, parseIPv4 ip.data = some (127, b, c, d)

/-- Membership in 169.254.0.0/16. -/
def inRange169254 (ip : String) : Prop :=
  ∃ c d, parseIPv4 ip.data = some (169, 254, c, d)

/-- C10.  Every string that is empty, fails to parse as a
(dotted-decimal) IP address, or lies in 192.168.0.0/16, 10.0.0.0/8,
127.0.0.0/8 or 169.254.0.0/16 — in particular every static-pool
address — is classified non-public, and the backend policy functions
therefore uniformly apply the static profile: SSH user `kube`, 30-second
boot wait, 2-minute SSH timeout, and the single-attempt 5-second
connection probe (never the multi-attempt EC2 probe).  The colon-free
side condition on the parse-failure case marks textual IPv6 forms
(which Go's full parser may accept) as outside this model. -/
theorem c10_private_static_profile (ip : String)
    (h : ip = "" ∨
         (parseIPv4 ip.data = none ∧ ¬(':' ∈ ip.data)) ∨
         inRange192168 ip ∨ inRange10 ip ∨ inRange127 ip ∨
         inRange169254 ip) :
    isPublicIP ip = false ∧ getSSHUsername ip = "kube" ∧
    getBootWaitTimeSecs ip = 30 ∧ getSSHTimeoutSecs ip = 120 ∧
    probePlan ip = localProbePlan := by
  have hfalse : isPublicIP ip = false := by
    rcases h with rfl | ⟨hparse, _⟩ | ⟨c, d, hr⟩ | ⟨b, c, d, hr⟩ |
      ⟨b, c, d, hr⟩ | ⟨c, d, hr⟩
    · decide
    · simp [isPublicIP, goIsPublicIP, hparse]
    · simp [isPublicIP, goIsPublicIP, prefix192168 hr]
    · simp [isPublicIP, goIsPublicIP, prefix10 hr]
    · simp [isPublicIP, goIsPublicIP, prefix127 hr]
    · simp [isPublicIP, goIsPublicIP, prefix169254 hr]
  exact ⟨hfalse, by simp [getSSHUsername, hfalse],
         by simp [getBootWaitTimeSecs, hfalse],
         by simp [getSSHTimeoutSecs, hfalse],
         by simp [probePlan, hfalse]⟩

theorem c10_witness :
    inRange192168 "192.168.2.37" ∧
    (isPublicIP "192.168.2.37" = false ∧
     getSSHUsername "192.168.2.37" = "kube" ∧
     getBootWaitTimeSecs "192.168.2.37" = 30 ∧
     getSSHTimeoutSecs "192.168.2.37" = 120 ∧
     probePlan "192.168.2.37" = localProbePlan) :=
  ⟨⟨2, 37, by decide⟩,
   c10_private_static_profile "192.168.2.37"
     (Or.inr (Or.inr (Or.inl ⟨2, 37, by decide⟩)))⟩

/-! ## Terminal-state monotonicity (C2) -/

/-- The spec's terminal states. -/
def terminalState (s : String) : Prop := s = "ready" ∨ s = "failed"

/-- No listed EC2 training VM targets the named request with a
running/ready report — the condition under which the cloud-monitoring
step leaves the request alone. -/
def vmSafe (vms : List EC2VM) (n : String) : Prop :=
  ∀ vm ∈ vms, vm.kratixRequest = n →
    vm.vmIP = "" ∨ (vm.state ≠ "running" ∧ vm.ready = false)

/-- Correspondence tracked through the pipeline: the name survives, and
a terminal, monitor-safe state survives. -/
def Pres (vms : List EC2VM) (r r' : Req) : Prop :=
  r'.name = r.name ∧
  (terminalState r.state ∧ vmSafe vms r.name → r'.state = r.state)

lemma Pres_trans {vms : List EC2VM} {r r' r'' : Req}
    (h1 : Pres vms r r') (h2 : Pres vms r' r'') : Pres vms r r'' := by
  obtain ⟨hn1, hs1⟩ := h1
  obtain ⟨hn2, hs2⟩ := h2
  refine ⟨hn2.trans hn1, ?_⟩
  rintro ⟨ht, hsafe⟩
  have e1 := hs1 ⟨ht, hsafe⟩
  have ht' : terminalState r'.state := by rw [e1]; exact ht
  have hsafe' : vmSafe vms r'.name := by rw [hn1]; exact hsafe
  have e2 := hs2 ⟨ht', hsafe'⟩
  rw [e2, e1]

lemma forall₂_of_map {P : Req → Req → Prop} (g : Req → Req)
    (h : ∀ r, P r (g r)) :
    ∀ rs : List Req, List.Forall₂ P rs (rs.map g) := by
  intro rs
  induction rs with
  | nil => simp
  | cons r rest ih => exact List.Forall₂.cons (h r) ih

lemma mapAccum_cons {σ : Type} (f : σ → Req → σ × Req) (s : σ)
    (r : Req) (rs : List Req) :
    mapAccum f s (r :: rs) =
      ((mapAccum f (f s r).1 rs).1,
       (f s r).2 :: (mapAccum f (f s r).1 rs).2) := by
  rcases hf : f s r with ⟨s', r'⟩
  simp [mapAccum, hf]

lemma forall₂_of_mapAccum {σ : Type} (f : σ → Req → σ × Req)
    {P : Req → Req → Prop} (h : ∀ s r, P r (f s r).2) :
    ∀ (rs : List Req) (s : σ),
      List.Forall₂ P rs (mapAccum f s rs).2 := by
  intro rs
  induction rs with
  | nil => intro s; simp [mapAccum]
  | cons r rest ih =>
      intro s
      rw [mapAccum_cons]
      exact List.Forall₂.cons (h s r) (ih (f s r).1)

lemma forall₂_trans {P : Req → Req → Prop}
    (htr : ∀ a b c, P a b → P b c → P a c) :
    ∀ {l1 l2 l3 : List Req}, List.Forall₂ P l1 l2 →
      List.Forall₂ P l2 l3 → List.Forall₂ P l1 l3 := by
  intro l1 l2 l3 h12
  induction h12 generalizing l3 with
  | nil =>
      intro h23
      cases h23
      exact List.Forall₂.nil
  | cons hab h12' ih =>
      intro h23
      cases h23 with
      | cons hbc h23' => exact List.Forall₂.cons (htr _ _ _ hab hbc) (ih h23')

lemma forall₂_mem {P : Req → Req → Prop} :
    ∀ {l l' : List Req}, List.Forall₂ P l l' → ∀ {r : Req}, r ∈ l →
      ∃ r' ∈ l', P r r' := by
  intro l l' h
  induction h with
  | nil => intro r hr; cases hr
  | cons hab h' ih =>
      intro r hr
      rcases List.mem_cons.mp hr with rfl | hr'
      · exact ⟨_, List.mem_cons_self _ _, hab⟩
      · obtain ⟨r', hr'', hp⟩ := ih hr'
        exact ⟨r', List.mem_cons_of_mem _ hr'', hp⟩

lemma pres_processStep (vms : List EC2VM) (p : List String) (r : Req) :
    Pres vms r (processStep p r).2 := by
  by_cases hc : r.name ∈ p
  · simp [processStep, hc, Pres]
  · by_cases hs : r.state = ""
    · refine ⟨by simp [processStep, hc, hs, updateRequestStatus], ?_⟩
      rintro ⟨ht, _⟩
      exact absurd ht (by simp [terminalState, hs])
    · simp [processStep, hc, hs, Pres]

lemma handleCloudFallback_name (env : Env) (r : Req) :
    (handleCloudFallback env r).name = r.name := by
  unfold handleCloudFallback
  split
  · split
    · rfl
    · rfl
  · split
    · rfl
    · rfl

lemma allocateOne_name (env : Env) (now : Nat) (used : List String)
    (r : Req) : ((allocateOne env now used r).2).name = r.name := by
  by_cases hskip : (r.state != "pending" || r.vmIP != "") = true
  · simp [allocateOne, hskip]
  · by_cases hsel : findAvailableStaticVM env.reachable used ≠ ""
    · simp [allocateOne, hskip, hsel, updateRequestStatus]
    · by_cases hfb : r.fallbackEnabled = true
      · simp [allocateOne, hskip, hsel, hfb,
              handleCloudFallback_name env r]
      · simp [allocateOne, hskip, hsel, hfb]

lemma allocateOne_terminal (env : Env) (now : Nat) (used : List String)
    (r : Req) (ht : terminalState r.state) :
    (allocateOne env now used r).2 = r := by
  rcases ht with h | h <;> simp [allocateOne, h]

lemma pres_allocateOne (vms : List EC2VM) (env : Env) (now : Nat)
    (used : List String) (r : Req) :
    Pres vms r (allocateOne env now used r).2 := by
  refine ⟨allocateOne_name env now used r, ?_⟩
  rintro ⟨ht, _⟩
  rw [allocateOne_terminal env now used r ht]

lemma monitorReq_name (vms : List EC2VM) (r : Req) :
    (monitorReq vms r).name = r.name := by
  induction vms generalizing r with
  | nil => rfl
  | cons vm rest ih =>
      have step : (monitorReq (vm :: rest) r) =
          monitorReq rest
            (if vm.kratixRequest != "" && vm.vmIP != "" &&
                (vm.state == "running" || vm.ready) &&
                vm.kratixRequest == r.name then
              updateRequestStatus r "allocated" vm.vmIP "ec2" false
            else r) := rfl
      rw [step, ih]
      split
      · rfl
      · rfl

lemma monitorReq_safe (vms : List EC2VM) (r : Req)
    (hsafe : vmSafe vms r.name) : monitorReq vms r = r := by
  induction vms with
  | nil => rfl
  | cons vm rest ih =>
      have hrest : vmSafe rest r.name :=
        fun v hv hk => hsafe v (List.mem_cons_of_mem _ hv) hk
      have step : (monitorReq (vm :: rest) r) =
          monitorReq rest
            (if vm.kratixRequest != "" && vm.vmIP != "" &&
                (vm.state == "running" || vm.ready) &&
                vm.kratixRequest == r.name then
              updateRequestStatus r "allocated" vm.vmIP "ec2" false
            else r) := rfl
      rw [step]
      by_cases hk : vm.kratixRequest = r.name
      · rcases hsafe vm (List.mem_cons_self _ _) hk with hip | ⟨hst, hrd⟩
        · simp only [hip]
          simp [ih hrest]
        · simp only [hst, hrd]
          simp [ih hrest, hst]
      · simp [hk, ih hrest]

lemma pres_monitorReq (vms : List EC2VM) (r : Req) :
    Pres vms r (monitorReq vms r) := by
  refine ⟨monitorReq_name vms r, ?_⟩
  rintro ⟨_, hsafe⟩
  rw [monitorReq_safe vms r hsafe]

lemma statusStep_name (env : Env) (now : Nat) (r : Req) :
    (statusStep env now r).name = r.name := by
  unfold statusStep
  split
  · rfl
  · split
    · rfl
    · split
      · rfl
      · split
        · rfl
        · split
          · rfl
          · rfl

lemma statusStep_terminal (env : Env) (now : Nat) (r : Req)
    (ht : terminalState r.state) : statusStep env now r = r := by
  rcases ht with h | h <;> simp [statusStep, h]

lemma pres_statusStep (vms : List EC2VM) (env : Env) (now : Nat)
    (r : Req) : Pres vms r (statusStep env now r) := by
  refine ⟨statusStep_name env now r, ?_⟩
  rintro ⟨ht, _⟩
  rw [statusStep_terminal env now r ht]

lemma cleanupStep_name (now : Nat) (r : Req) :
    (cleanupStep now r).name = r.name := by
  unfold cleanupStep
  split
  · split
    · split
      · rfl
      · rfl
    · rfl
  · rfl

lemma cleanupStep_terminal (now : Nat) (r : Req)
    (ht : terminalState r.state) : cleanupStep now r = r := by
  rcases ht with h | h <;> simp [cleanupStep, h]

lemma pres_cleanupStep (vms : List EC2VM) (now : Nat) (r : Req) :
    Pres vms r (cleanupStep now r) := by
  refine ⟨cleanupStep_name now r, ?_⟩
  rintro ⟨ht, _⟩
  rw [cleanupStep_terminal now r ht]

lemma tickCM_forall₂ (env : Env) (now : Nat) (vms : List EC2VM)
    (s : CState) :
    List.Forall₂ (Pres vms) s.reqs (tickCM env now vms s).reqs := by
  have e : (tickCM env now vms s).reqs =
      ((monitorCloudInstances vms
          (allocateVMs env now
            (mapAccum processStep s.processed s.reqs).2)).map
        (statusStep env now)).map (cleanupStep now) := by
    rcases hp : mapAccum processStep s.processed s.reqs with ⟨p1, rs1⟩
    simp [tickCM, hp, allocateVMs]
  rw [e]
  have f1 := forall₂_of_mapAccum processStep
    (fun p r => pres_processStep vms p r) s.reqs s.processed
  have f2 := forall₂_of_mapAccum (allocateOne env now)
    (fun u r => pres_allocateOne vms env now u r)
    (mapAccum processStep s.processed s.reqs).2
    (refreshUsedIPs (mapAccum processStep s.processed s.reqs).2)
  have f3 := forall₂_of_map (monitorReq vms) (pres_monitorReq vms)
    (allocateVMs env now (mapAccum processStep s.processed s.reqs).2)
  have f4 := forall₂_of_map (statusStep env now)
    (pres_statusStep vms env now)
    (monitorCloudInstances vms
      (allocateVMs env now (mapAccum processStep s.processed s.reqs).2))
  have f5 := forall₂_of_map (cleanupStep now)
    (pres_cleanupStep vms now)
    ((monitorCloudInstances vms
        (allocateVMs env now
          (mapAccum processStep s.processed s.reqs).2)).map
      (statusStep env now))
  have htr : ∀ a b c, Pres vms a b → Pres vms b c → Pres vms a c :=
    fun _ _ _ => Pres_trans
  exact forall₂_trans htr f1
    (forall₂_trans htr f2
      (forall₂_trans htr f3 (forall₂_trans htr f4 f5)))

lemma tick_forall₂ (env : Env) (now : Nat) (s : CState) :
    List.Forall₂ (Pres []) s.reqs (tick env now s).reqs := by
  have e : (tick env now s).reqs =
      ((allocateVMs env now
          (mapAccum processStep s.processed s.reqs).2).map
        (statusStep env now)).map (cleanupStep now) := by
    rcases hp : mapAccum processStep s.processed s.reqs with ⟨p1, rs1⟩
    simp [tick, hp, allocateVMs]
  rw [e]
  have f1 := forall₂_of_mapAccum processStep
    (fun p r => pres_processStep [] p r) s.reqs s.processed
  have f2 := forall₂_of_mapAccum (allocateOne env now)
    (fun u r => pres_allocateOne [] env now u r)
    (mapAccum processStep s.processed s.reqs).2
    (refreshUsedIPs (mapAccum processStep s.processed s.reqs).2)
  have f4 := forall₂_of_map (statusStep env now)
    (pres_statusStep [] env now)
    (allocateVMs env now (mapAccum processStep s.processed s.reqs).2)
  have f5 := forall₂_of_map (cleanupStep now)
    (pres_cleanupStep [] now)
    ((allocateVMs env now
        (mapAccum processStep s.processed s.reqs).2).map
      (statusStep env now))
  have htr : ∀ a b c, Pres [] a b → Pres [] b c → Pres [] a c :=
    fun _ _ _ => Pres_trans
  exact forall₂_trans htr f1
    (forall₂_trans htr f2 (forall₂_trans htr f4 f5))

/-- C2, amended.  In the basic watch loop a request that has reached
`ready` or `failed` is never changed by any subsequent tick (the
processed-entry TTL pruning touches only the in-memory name set, not
the request).  In the cloud-monitoring loop the same holds for every
terminal request *not* targeted by an EC2 training VM that reports an
IP and running/ready state; a VM that does report one resets the
request to `allocated` (see the counterexample). -/
theorem c2_terminal_monotone (env : Env) (now : Nat)
    (vms : List EC2VM) (s : CState) :
    (∀ r ∈ s.reqs, terminalState r.state → vmSafe vms r.name →
      ∃ r' ∈ (tickCM env now vms s).reqs,
        r'.name = r.name ∧ r'.state = r.state) ∧
    (∀ r ∈ s.reqs, terminalState r.state →
      ∃ r' ∈ (tick env now s).reqs,
        r'.name = r.name ∧ r'.state = r.state) := by
  constructor
  · intro r hr ht hsafe
    obtain ⟨r', hr', hp⟩ := forall₂_mem (tickCM_forall₂ env now vms s) hr
    exact ⟨r', hr', hp.1, hp.2 ⟨ht, hsafe⟩⟩
  · intro r hr ht
    obtain ⟨r', hr', hp⟩ := forall₂_mem (tick_forall₂ env now s) hr
    refine ⟨r', hr', hp.1, hp.2 ⟨ht, ?_⟩⟩
    intro vm hvm
    cases hvm

/-- C2, concrete ready request for the counterexample and witness. -/
def c2req : Req :=
  { name := "r2", user := "u2", session := "s2",
    fallbackEnabled := true, state := "ready",
    vmIP := "3.4.5.6", vmType := "ec2", provisioned := true,
    allocatedAt := some 0, readyAt := some 10,
    sourceHobbyfarm := false, labelSession := "", labelUser := "" }

/-- C2, environment in which nothing is reachable. -/
def c2env : Env :=
  { reachable := fun _ => false, sshOk := fun _ => false,
    provisionOk := fun _ => false, cloudInst := fun _ => none,
    createOk := fun _ => false }

/-- C2, a running EC2 training VM still labelled with the request. -/
def c2vm : EC2VM :=
  { kratixRequest := "r2", vmIP := "3.4.5.6", state := "running",
    ready := true, instanceId := "i-1" }

/-- C2, counterexample.  The claim says no subsequent tick — including
the cloud-monitoring step — changes the state of a `ready` request.
One cloud-monitoring tick over a still-running EC2 record demotes the
ready request back to `allocated`. -/
theorem c2_counterexample :
    c2req.state = "ready" ∧
    ((tickCM c2env 0 [c2vm] ⟨[c2req], []⟩).reqs.map (·.state)) =
      ["allocated"] := by decide

theorem c2_witness :
    c2req.state = "ready" ∧
    (∃ r' ∈ (tickCM c2env 0 [] ⟨[c2req], []⟩).reqs,
      r'.name = c2req.name ∧ r'.state = c2req.state) ∧
    (∃ r' ∈ (tick c2env 0 ⟨[c2req], []⟩).reqs,
      r'.name = c2req.name ∧ r'.state = c2req.state) :=
  ⟨rfl,
   (c2_terminal_monotone c2env 0 [] ⟨[c2req], []⟩).1 c2req
     (List.mem_cons_self _ _) (Or.inl rfl) (by intro vm hvm; cases hvm),
   (c2_terminal_monotone c2env 0 [] ⟨[c2req], []⟩).2 c2req
     (List.mem_cons_self _ _) (Or.inl rfl)⟩

/-! ## At-most-one static handle (C1) -/

/-- Indicator: a request is live and holds handle `ip`. -/
def liveHolder (ip : String) (r : Req) : Bool :=
  isLiveState r.state && r.vmIP == ip

/-- Live requests holding a given handle. -/
def countLive (ip : String) (rs : List Req) : Nat :=
  rs.countP (liveHolder ip)

/-- The invariant: no static-pool handle is held by more than one live
request. -/
def AtMostOneStatic (rs : List Req) : Prop :=
  ∀ ip ∈ staticVMPool, countLive ip rs ≤ 1

lemma staticVMPool_ne_empty : ∀ x ∈ staticVMPool, x ≠ "" := by decide

lemma countP_map_le (q : Req → Bool) (g : Req → Req)
    (h : ∀ r, q (g r) = true → q r = true) :
    ∀ rs : List Req, (rs.map g).countP q ≤ rs.countP q := by
  intro rs
  induction rs with
  | nil => simp
  | cons r rest ih =>
      simp only [List.map_cons, List.countP_cons]
      by_cases hq : q (g r) = true
      · rw [if_pos hq, if_pos (h r hq)]
        omega
      · rw [if_neg hq]
        by_cases hq2 : q r = true
        · rw [if_pos hq2]; omega
        · rw [if_neg hq2]; omega

lemma countP_mapAccum_eq {σ : Type} (f : σ → Req → σ × Req)
    (q : Req → Bool) (h : ∀ s r, q (f s r).2 = q r) :
    ∀ (rs : List Req) (s : σ),
      ((mapAccum f s rs).2).countP q = rs.countP q := by
  intro rs
  induction rs with
  | nil => intro s; simp [mapAccum]
  | cons r rest ih =>
      intro s
      rw [mapAccum_cons]
      simp [List.countP_cons, h s r, ih]

lemma processStep_live (ip : String) (p : List String) (r : Req) :
    liveHolder ip (processStep p r).2 = liveHolder ip r := by
  by_cases hc : r.name ∈ p
  · simp [processStep, hc]
  · by_cases hs : r.state = ""
    · simp [processStep, hc, hs, liveHolder, updateRequestStatus,
            isLiveState]
    · simp [processStep, hc, hs]

lemma statusStep_vmIP (env : Env) (now : Nat) (r : Req) :
    (statusStep env now r).vmIP = r.vmIP := by
  unfold statusStep
  split
  · rfl
  · split
    · rfl
    · split
      · rfl
      · split
        · simp [updateRequestStatus]
        · split
          · simp [updateRequestStatus]
          · simp [updateRequestStatus]

lemma statusStep_cases (env : Env) (now : Nat) (r : Req) :
    statusStep env now r = r ∨ r.state = "allocated" := by
  by_cases h1 : (r.state != "allocated" || r.vmIP == "" ||
      r.provisioned) = true
  · left; simp [statusStep, h1]
  · right
    simp only [Bool.or_eq_true, not_or, bne_iff_ne, ne_eq,
      Bool.not_eq_true] at h1
    simpa using h1.1.1

lemma statusStep_live_le (env : Env) (now : Nat) (ip : String) (r : Req)
    (h : liveHolder ip (statusStep env now r) = true) :
    liveHolder ip r = true := by
  rcases statusStep_cases env now r with he | hst
  · rwa [he] at h
  · unfold liveHolder at h ⊢
    rw [statusStep_vmIP env now r] at h
    rw [Bool.and_eq_true] at h
    rw [hst, Bool.and_eq_true]
    exact ⟨by decide, h.2⟩

lemma cleanupStep_cases (now : Nat) (r : Req) :
    cleanupStep now r = r ∨
    cleanupStep now r = updateRequestStatus r "failed" "" "" false := by
  unfold cleanupStep
  split
  · split
    · split
      · right; rfl
      · left; rfl
    · left; rfl
  · left; rfl

lemma cleanupStep_live_le (now : Nat) (ip : String) (r : Req)
    (h : liveHolder ip (cleanupStep now r) = true) :
    liveHolder ip r = true := by
  rcases cleanupStep_cases now r with he | he
  · rwa [he] at h
  · rw [he] at h
    simp [liveHolder, updateRequestStatus, isLiveState] at h

lemma findFirstFit_spec (reachable : String → Bool)
    (used : List String) :
    ∀ pool : List String, findFirstFit reachable used pool ≠ "" →
      findFirstFit reachable used pool ∈ pool ∧
      findFirstFit reachable used pool ∉ used := by
  intro pool
  induction pool with
  | nil => intro h; exact absurd rfl h
  | cons ip rest ih =>
      intro h
      by_cases hu : ip ∈ used
      · have e : findFirstFit reachable used (ip :: rest) =
            findFirstFit reachable used rest := by
          simp [findFirstFit, hu]
        rw [e] at h ⊢
        obtain ⟨h1, h2⟩ := ih h
        exact ⟨List.mem_cons_of_mem _ h1, h2⟩
      · by_cases hr : reachable ip = true
        · have e : findFirstFit reachable used (ip :: rest) = ip := by
            simp [findFirstFit, hu, hr]
          rw [e] at h ⊢
          exact ⟨List.mem_cons_self _ _, hu⟩
        · have hr' : reachable ip = false := by simpa using hr
          have e : findFirstFit reachable used (ip :: rest) =
              findFirstFit reachable used rest := by
            simp [findFirstFit, hr']
          rw [e] at h ⊢
          obtain ⟨h1, h2⟩ := ih h
          exact ⟨List.mem_cons_of_mem _ h1, h2⟩

lemma handleCloudFallback_not_live (env : Env)
    (hcloud : ∀ n i, env.cloudInst n = some i →
      i.publicIp ∉ staticVMPool)
    (ip : String) (hip : ip ∈ staticVMPool) (r : Req)
    (hst : r.state = "pending") :
    liveHolder ip (handleCloudFallback env r) = false := by
  cases hin : env.cloudInst ("training-" ++ r.session) with
  | none =>
      simp only [handleCloudFallback, hin]
      split
      · simp [liveHolder, isLiveState, hst]
      · simp [liveHolder, updateRequestStatus, isLiveState]
  | some inst =>
      simp only [handleCloudFallback, hin]
      by_cases hrun : (inst.publicIp != "" &&
          inst.instanceState == "running") = true
      · have hnp := hcloud _ _ hin
        have hne : inst.publicIp ≠ ip := fun hq => hnp (hq ▸ hip)
        have hipne : inst.publicIp ≠ "" := by
          have h' := hrun
          rw [Bool.and_eq_true] at h'
          simpa using h'.1
        simp [hrun, liveHolder, updateRequestStatus, isLiveState,
              hipne, hne]
      · simp only [Bool.and_eq_true, bne_iff_ne, ne_eq, beq_iff_eq,
          not_and] at hrun
        by_cases hpe : inst.publicIp = ""
        · simp [hpe, liveHolder, isLiveState, hst]
        · have hnr : ¬ inst.instanceState = "running" := hrun hpe
          simp [hpe, hnr, liveHolder, isLiveState, hst]

lemma findAvailableStaticVM_spec (reachable : String → Bool)
    (used : List String)
    (h : findAvailableStaticVM reachable used ≠ "") :
    findAvailableStaticVM reachable used ∈ staticVMPool ∧
    findAvailableStaticVM reachable used ∉ used :=
  findFirstFit_spec reachable used staticVMPool h

lemma allocLoop_count (env : Env) (now : Nat)
    (hcloud : ∀ n i, env.cloudInst n = some i →
      i.publicIp ∉ staticVMPool)
    (ip : String) (hip : ip ∈ staticVMPool) :
    ∀ (rs : List Req) (used : List String),
      countLive ip (mapAccum (allocateOne env now) used rs).2 ≤
        countLive ip rs + (if ip ∈ used then 0 else 1) := by
  intro rs
  induction rs with
  | nil =>
      intro used
      simp only [mapAccum, countLive, List.countP_nil]
      split <;> omega
  | cons r rest ih =>
      intro used
      rw [mapAccum_cons]
      simp only [countLive, List.countP_cons] at ih ⊢
      by_cases hskip : (r.state != "pending" || r.vmIP != "") = true
      · have e1 : (allocateOne env now used r).1 = used := by
          simp [allocateOne, hskip]
        have e2 : (allocateOne env now used r).2 = r := by
          simp [allocateOne, hskip]
        rw [e1, e2]
        have hb := ih used
        omega
      · have hcond : r.state = "pending" ∧ r.vmIP = "" := by
          simpa using hskip
        obtain ⟨hst, hipr⟩ := hcond
        have hlive_r : ¬ liveHolder ip r = true := by
          simp [liveHolder, isLiveState, hst]
        by_cases hsel : findAvailableStaticVM env.reachable used ≠ ""
        · have e1 : (allocateOne env now used r).1 =
              findAvailableStaticVM env.reachable used :: used := by
            simp [allocateOne, hskip, hsel]
          have e2 : (allocateOne env now used r).2 =
              { updateRequestStatus r "allocated"
                  (findAvailableStaticVM env.reachable used) "static"
                  false with allocatedAt := some now } := by
            simp [allocateOne, hskip, hsel]
          rw [e1, e2]
          obtain ⟨hselmem, hselused⟩ :=
            findAvailableStaticVM_spec env.reachable used hsel
          by_cases hipsel : ip = findAvailableStaticVM env.reachable used
          · have hr' : liveHolder ip
                ({ updateRequestStatus r "allocated"
                     (findAvailableStaticVM env.reachable used) "static"
                     false with allocatedAt := some now }) = true := by
              simp [liveHolder, updateRequestStatus, isLiveState, hsel,
                    hipsel]
            have hb := ih (findAvailableStaticVM env.reachable used :: used)
            have hsel_in : ip ∈
                findAvailableStaticVM env.reachable used :: used := by
              rw [hipsel]; exact List.mem_cons_self _ _
            rw [if_pos hsel_in] at hb
            have hnotused : ¬ ip ∈ used := fun hc =>
              hselused (by rwa [hipsel] at hc)
            rw [if_neg hnotused, if_pos hr', if_neg hlive_r]
            omega
          · have hr' : ¬ liveHolder ip
                ({ updateRequestStatus r "allocated"
                     (findAvailableStaticVM env.reachable used) "static"
                     false with allocatedAt := some now }) = true := by
              have hbf : (findAvailableStaticVM env.reachable used == ip) =
                  false :=
                beq_eq_false_iff_ne.mpr (fun hq => hipsel hq.symm)
              simp [liveHolder, updateRequestStatus, isLiveState, hsel,
                    hbf]
            have hb := ih (findAvailableStaticVM env.reachable used :: used)
            have hmemiff : (ip ∈
                findAvailableStaticVM env.reachable used :: used) ↔
                ip ∈ used := by
              simp [List.mem_cons, hipsel]
            by_cases hu : ip ∈ used
            · rw [if_pos (hmemiff.mpr hu)] at hb
              rw [if_pos hu, if_neg hr', if_neg hlive_r]
              omega
            · rw [if_neg (fun hc => hu (hmemiff.mp hc))] at hb
              rw [if_neg hu, if_neg hr', if_neg hlive_r]
              omega
        · by_cases hfb : r.fallbackEnabled = true
          · have e1 : (allocateOne env now used r).1 = used := by
              simp [allocateOne, hskip, hsel, hfb]
            have e2 : (allocateOne env now used r).2 =
                handleCloudFallback env r := by
              simp [allocateOne, hskip, hsel, hfb]
            rw [e1, e2]
            have hr' : ¬ liveHolder ip (handleCloudFallback env r) = true := by
              simp [handleCloudFallback_not_live env hcloud ip hip r hst]
            have hb := ih used
            rw [if_neg hr', if_neg hlive_r]
            omega
          · have e1 : (allocateOne env now used r).1 = used := by
              simp [allocateOne, hskip, hsel, hfb]
            have e2 : (allocateOne env now used r).2 = r := by
              simp [allocateOne, hskip, hsel, hfb]
            rw [e1, e2]
            have hb := ih used
            omega

lemma countLive_pos_mem_used (ip : String) (hipne : ip ≠ "")
    (rs : List Req) (h : 0 < countLive ip rs) :
    ip ∈ refreshUsedIPs rs := by
  obtain ⟨r, hr, hpr⟩ := List.countP_pos_iff.mp h
  rw [liveHolder, Bool.and_eq_true] at hpr
  obtain ⟨hl, hq⟩ := hpr
  have hipq : r.vmIP = ip := by simpa using hq
  have hfilt : r ∈ rs.filter (fun x => x.vmIP != "" && isLiveState x.state) := by
    rw [List.mem_filter]
    refine ⟨hr, ?_⟩
    rw [Bool.and_eq_true]
    exact ⟨by simp [hipq, hipne], hl⟩
  rw [refreshUsedIPs, ← hipq]
  exact List.mem_map_of_mem (·.vmIP) hfilt

lemma allocateVMs_count (env : Env) (now : Nat)
    (hcloud : ∀ n i, env.cloudInst n = some i →
      i.publicIp ∉ staticVMPool)
    (rs : List Req) (ip : String) (hip : ip ∈ staticVMPool)
    (hle : countLive ip rs ≤ 1) :
    countLive ip (allocateVMs env now rs) ≤ 1 := by
  unfold allocateVMs
  have hb := allocLoop_count env now hcloud ip hip rs (refreshUsedIPs rs)
  by_cases h0 : countLive ip rs = 0
  · have : (if ip ∈ refreshUsedIPs rs then 0 else 1) ≤ 1 := by
      split <;> omega
    omega
  · have hpos : 0 < countLive ip rs := Nat.pos_of_ne_zero h0
    have hmem := countLive_pos_mem_used ip
      (staticVMPool_ne_empty ip hip) rs hpos
    rw [if_pos hmem] at hb
    omega

lemma tick_reqs_eq (env : Env) (now : Nat) (s : CState) :
    (tick env now s).reqs =
      ((allocateVMs env now
          (mapAccum processStep s.processed s.reqs).2).map
        (statusStep env now)).map (cleanupStep now) := by
  rcases hp : mapAccum processStep s.processed s.reqs with ⟨p1, rs1⟩
  simp [tick, hp, allocateVMs]

lemma tick_count (env : Env) (now : Nat) (s : CState)
    (hcloud : ∀ n i, env.cloudInst n = some i →
      i.publicIp ∉ staticVMPool)
    (ip : String) (hip : ip ∈ staticVMPool)
    (hle : countLive ip s.reqs ≤ 1) :
    countLive ip (tick env now s).reqs ≤ 1 := by
  rw [tick_reqs_eq]
  have h1 : countLive ip (mapAccum processStep s.processed s.reqs).2 =
      countLive ip s.reqs :=
    countP_mapAccum_eq processStep (liveHolder ip)
      (fun p r => processStep_live ip p r) s.reqs s.processed
  have h2 : countLive ip
      (allocateVMs env now (mapAccum processStep s.processed s.reqs).2) ≤
      1 :=
    allocateVMs_count env now hcloud _ ip hip (h1 ▸ hle)
  have h3 := countP_map_le (liveHolder ip) (statusStep env now)
    (fun r hr => statusStep_live_le env now ip r hr)
    (allocateVMs env now (mapAccum processStep s.processed s.reqs).2)
  have h4 := countP_map_le (liveHolder ip) (cleanupStep now)
    (fun r hr => cleanupStep_live_le now ip r hr)
    ((allocateVMs env now
        (mapAccum processStep s.processed s.reqs).2).map
      (statusStep env now))
  exact le_trans h4 (le_trans h3 h2)

/-- C1.  After every reconciliation pass of the watch loop, at most one
live (allocated/provisioning/ready) request holds any given static-pool
handle: the per-tick recomputation of `usedIPs` from the live request
set, followed by allocation that only selects handles not in `usedIPs`
and marks each selected handle used before the next request is
considered, preserves the invariant over every sequence of single-loop
ticks.  The environment hypothesis states that the cloud fallback never
reports a static-pool address as an elastic instance's public IP. -/
theorem c1_at_most_one_static_handle (steps : List (Env × Nat))
    (s : CState)
    (hcloud : ∀ e ∈ steps, ∀ n i, (e.1).cloudInst n = some i →
      i.publicIp ∉ staticVMPool)
    (hinv : AtMostOneStatic s.reqs) :
    AtMostOneStatic
      ((steps.foldl (fun st en => tick en.1 en.2 st) s).reqs) := by
  induction steps generalizing s with
  | nil => exact hinv
  | cons e rest ih =>
      simp only [List.foldl_cons]
      refine ih (tick e.1 e.2 s) ?_ ?_
      · intro e' he'
        exact hcloud e' (List.mem_cons_of_mem _ he')
      · intro ip hip
        exact tick_count e.1 e.2 s
          (hcloud e (List.mem_cons_self _ _)) ip hip (hinv ip hip)

/-- C1, concrete state for the witness: one live request on each pool
handle plus a pending one. -/
def c1reqs : List Req :=
  [{ name := "a", user := "u", session := "sa",
     fallbackEnabled := false, state := "ready",
     vmIP := "192.168.2.37", vmType := "static", provisioned := true,
     allocatedAt := some 0, readyAt := some 50,
     sourceHobbyfarm := false, labelSession := "", labelUser := "" },
   { name := "b", user := "u", session := "sb",
     fallbackEnabled := false, state := "allocated",
     vmIP := "192.168.2.38", vmType := "static", provisioned := false,
     allocatedAt := some 0, readyAt := none,
     sourceHobbyfarm := false, labelSession := "", labelUser := "" },
   { name := "c", user := "u", session := "sc",
     fallbackEnabled := false, state := "pending",
     vmIP := "", vmType := "", provisioned := false,
     allocatedAt := none, readyAt := none,
     sourceHobbyfarm := false, labelSession := "", labelUser := "" }]

/-- C1, witness environment: probes succeed, no cloud instances. -/
def c1env : Env :=
  { reachable := fun _ => true, sshOk := fun _ => true,
    provisionOk := fun _ => true, cloudInst := fun _ => none,
    createOk := fun _ => true }

theorem c1_witness :
    AtMostOneStatic c1reqs ∧
    AtMostOneStatic
      (([((c1env, 0) : Env × Nat)].foldl
          (fun st en => tick en.1 en.2 st) ⟨c1reqs, []⟩).reqs) :=
  ⟨by unfold AtMostOneStatic; decide,
   c1_at_most_one_static_handle [(c1env, 0)] ⟨c1reqs, []⟩
     (by
       intro e he n i hsome
       simp only [List.mem_singleton] at he
       subst he
       cases hsome)
     (by unfold AtMostOneStatic; decide)⟩

end HFK
